import Mathlib

/-!
# EtherTime `arduino/pulse.c`: GPIO pulse generator

A shallow embedding of `pulse.c` (register window mapping, pin configuration
and the second-boundary toggle loop) together with theorems about it.

Modelling conventions
* `int` is 32-bit two's complement, `uint32_t` is a natural number reduced
  modulo `2^32`, `off_t` is the 64-bit signed type of `<sys/types.h>`; an
  operation whose C behaviour is undefined yields `none` (or the control
  state `Ctl.fault`).
* The mapped page is a word buffer `Window = Nat → Nat` indexed by 32-bit word;
  only indices below `PAGE_WORDS` belong to the mapping.
* System calls and library calls are recorded in an explicit event trace; their
  results come from an environment (`Env`) and from a list of clock reads.
* `run_loop` is the transition system of the `for (;;)` loop, advancing by one
  `clock_gettime` call per step; each of the four call sites is a control state.
-/

namespace Pulse

/-! ## Constants -/

/-- C source: `#define BCM2711_PI4_PERI_BASE 0xFE000000` -/
def BCM2711_PI4_PERI_BASE : Int := 0xFE000000

/-- C source: `#define PERI_BASE BCM2711_PI4_PERI_BASE` -/
def PERI_BASE : Int := BCM2711_PI4_PERI_BASE

/-- C source: `#define TOGGLE_GPIO 26` -/
def TOGGLE_GPIO : Int := 26

/-- C source: `#define PAGE_SIZE 4096` -/
def PAGE_SIZE : Nat := 4096

/-- C source: `#define GPIO_REGISTER_BASE 0x200000` -/
def GPIO_REGISTER_BASE : Int := 0x200000

/-- C source: `#define GPIO_SET_OFFSET 0x1C` -/
def GPIO_SET_OFFSET : Nat := 0x1C

/-- C source: `#define GPIO_CLR_OFFSET 0x28` -/
def GPIO_CLR_OFFSET : Nat := 0x28

/-- C source: `sizeof(uint32_t)` -/
def SIZEOF_UINT32 : Nat := 4

/-- Largest value of the 32-bit `int`. -/
def INT_MAX : Int := 2 ^ 31 - 1

/-- Largest value of the 64-bit signed `off_t`. -/
def OFF_T_MAX : Int := 2 ^ 63 - 1

/-- Smallest value of the 64-bit signed `off_t`. -/
def OFF_T_MIN : Int := -(2 ^ 63)

/-- Linux value of the scheduling policy `SCHED_FIFO`. -/
def SCHED_FIFO : Int := 1

/-! ## Machine arithmetic -/

/-- Conversion of an `int` to `uint32_t`: reduction modulo `2^32`. -/
def to_uint32 (i : Int) : Nat := (i % 2 ^ 32).toNat

/-- The C expression `a << s` on `int`: defined for a non-negative `a`, a shift count in
`[0, 32)` and a representable result. -/
def shl_int (a s : Int) : Option Int :=
  if 0 ≤ a ∧ 0 ≤ s ∧ s < 32 ∧ a * 2 ^ s.toNat ≤ INT_MAX then some (a * 2 ^ s.toNat) else none

/-- The C expression `~a` on `int` (two's complement). -/
def not_int (a : Int) : Int := -a - 1

/-! ## Events, environment, register window -/

/-- Result of one `clock_gettime(CLOCK_REALTIME, &current_time)` call: success with the
nanosecond field it stored, or failure (non-zero status, `current_time` left as it was). -/
inductive ClockRead
  | ok (tv_nsec : Int)
  | fail
  deriving DecidableEq

/-- Observable actions of the program, in program order. -/
inductive Event
  /-- C source: `open(path, O_RDWR|O_SYNC)` returning `ret`. -/
  | sys_open (path : String) (rdwr sync : Bool) (ret : Int)
  /-- C source: `perror(msg)`. -/
  | perror (msg : String)
  /-- C source: `fprintf(stderr, fmt, args)`. -/
  | fprintf_stderr (fmt : String) (args : List Int)
  /-- C source: `mmap(NULL, length, prot, flags, fd, offset)`; `ok = false` means `MAP_FAILED`. -/
  | sys_mmap (length : Nat) (prot_read prot_write map_shared : Bool) (fd : Int) (offset : Int)
      (ok : Bool)
  /-- C source: `close(fd)`. -/
  | sys_close (fd : Int)
  /-- Read of word `idx` of the mapped page. -/
  | load (idx : Nat)
  /-- Write of `val` to word `idx` of the mapped page. -/
  | store (idx : Nat) (val : Nat)
  /-- Access to word `idx` through a pointer that is not a valid mapping (undefined behaviour). -/
  | invalid_access (idx : Int)
  /-- C source: `sched_setscheduler(pid, policy, &schedparm)` with `schedparm.sched_priority = priority`. -/
  | sched_setscheduler (pid policy priority ret : Int)
  /-- C source: `printf(fmt, args)`. -/
  | printf (fmt : String) (args : List Int)
  /-- C source: `usleep(usec)`. -/
  | usleep (usec : Nat)
  /-- C source: `clock_gettime(CLOCK_REALTIME, &current_time)`. -/
  | clock_gettime (r : ClockRead)
  /-- C source: `abort()`. -/
  | abort
  deriving DecidableEq

/-- Contents of the mapped page, by 32-bit word index. -/
abbrev Window := Nat → Nat

/-- Number of 32-bit words in the mapped page. -/
def PAGE_WORDS : Nat := PAGE_SIZE / SIZEOF_UINT32

/-- Results the operating system gives to the program. -/
structure Env where
  /-- Return value of `open("/dev/mem", ...)`: a descriptor, or negative on failure. -/
  open_ret : Int
  /-- Whether `mmap` succeeds. -/
  mmap_ok : Bool
  /-- Contents of the physical page behind a successful mapping. -/
  page : Window
  /-- Return value of `sched_setscheduler`. -/
  sched_ret : Int

/-- Read of `*(base + idx)` as `uint32_t`; `none` outside the mapped page. -/
def load (w : Window) (idx : Int) : Option Nat :=
  if 0 ≤ idx ∧ idx < PAGE_WORDS then some (w idx.toNat % 2 ^ 32) else none

/-- Write `*(base + idx) = v` as `uint32_t`; `none` outside the mapped page. -/
def store (w : Window) (idx : Int) (v : Nat) : Option Window :=
  if 0 ≤ idx ∧ idx < PAGE_WORDS then some (Function.update w idx.toNat (v % 2 ^ 32)) else none

/-! ## `mmap_bcm_register` -/

/-- Value returned by `mmap_bcm_register`. -/
inductive MapResult
  /-- Undefined behaviour: `base + register_offset` overflows `off_t`. -/
  | undefined
  /-- The null pointer `NULL`. -/
  | null
  /-- Pointer to a mapped page with the given contents. -/
  | mapped (w : Window)

/-- Embedding of `static void *mmap_bcm_register(off_t register_offset)` with its event trace. -/
def mmap_bcm_register (env : Env) (register_offset : Int) : MapResult × List Event :=
  let base := PERI_BASE
  let mem_fd := env.open_ret
  let ev_open := Event.sys_open "/dev/mem" true true mem_fd
  if mem_fd < 0 then
    (MapResult.null,
      [ev_open, Event.perror "can't open /dev/mem: ",
       Event.fprintf_stderr "You need to run this as root!\n" []])
  else if base + register_offset < OFF_T_MIN ∨ OFF_T_MAX < base + register_offset then
    (MapResult.undefined, [ev_open])
  else
    let ev_mmap := Event.sys_mmap PAGE_SIZE true true true mem_fd (base + register_offset)
      env.mmap_ok
    if env.mmap_ok = false then
      (MapResult.null,
        [ev_open, ev_mmap, Event.sys_close mem_fd, Event.fprintf_stderr "mmap error %p\n" [-1]])
    else
      (MapResult.mapped env.page, [ev_open, ev_mmap, Event.sys_close mem_fd])

/-! ## `initialize_gpio_for_output` -/

/-- Word index `bit/10` (C division truncates toward zero). -/
def fsel_word (bit : Int) : Int := bit.tdiv 10

/-- Shift count `(bit%10)*3` (C remainder has the sign of the dividend). -/
def fsel_shift (bit : Int) : Int := bit.tmod 10 * 3

/-- Line 60: `*(gpio_registerset+(bit/10)) &= ~(7<<((bit%10)*3));` -/
def fsel_clear (w : Window) (bit : Int) : Option (Window × List Event) :=
  match shl_int 7 (fsel_shift bit), load w (fsel_word bit) with
  | some m, some x =>
    let v := (x &&& to_uint32 (not_int m)) % 2 ^ 32
    match store w (fsel_word bit) v with
    | some w1 => some (w1, [Event.load (fsel_word bit).toNat, Event.store (fsel_word bit).toNat v])
    | none => none
  | _, _ => none

/-- Line 61: `*(gpio_registerset+(bit/10)) |= (1<<((bit%10)*3));` -/
def fsel_set (w : Window) (bit : Int) : Option (Window × List Event) :=
  match shl_int 1 (fsel_shift bit), load w (fsel_word bit) with
  | some b, some x =>
    let v := (x ||| to_uint32 b) % 2 ^ 32
    match store w (fsel_word bit) v with
    | some w1 => some (w1, [Event.load (fsel_word bit).toNat, Event.store (fsel_word bit).toNat v])
    | none => none
  | _, _ => none

/-- Embedding of `void initialize_gpio_for_output(volatile uint32_t *gpio_registerset, int bit)` on a valid
mapping: the resulting page contents and the accesses made, or `none` when the call has undefined
behaviour (access outside the page, negative shift count). -/
def initialize_gpio_for_output (w : Window) (bit : Int) : Option (Window × List Event) :=
  match fsel_clear w bit with
  | some (w1, t1) =>
    match fsel_set w1 bit with
    | some (w2, t2) => some (w2, t1 ++ t2)
    | none => none
  | none => none

/-! ## `run_cpu_direct` -/

/-- Control states of `run_cpu_direct`. -/
inductive Ctl
  /-- Undefined behaviour was reached (invalid memory access or arithmetic). -/
  | fault
  /-- Line 90: about to call `clock_gettime` inside the first `do ... while`. -/
  | poll_rising
  /-- Line 98: `*set_reg` written, about to take the timestamp for the log line. -/
  | stamp_rising
  /-- Line 105: about to call `clock_gettime` inside the second `do ... while`. -/
  | poll_falling
  /-- Line 113: `*clr_reg` written, about to take the timestamp for the log line. -/
  | stamp_falling
  /-- The process called `abort()`. -/
  | aborted
  /-- Line 116: the end of the function body, after the `for (;;)` statement. -/
  | returned
  deriving DecidableEq

/-- Local variables of the loop and the page contents. -/
structure State where
  ctl : Ctl
  last_nsec : Int
  tv_nsec : Int
  window : Window

/-- Word index of `set_reg = gpio_port + (GPIO_SET_OFFSET / sizeof(uint32_t))`. -/
def set_reg_index : Nat := GPIO_SET_OFFSET / SIZEOF_UINT32

/-- Word index of `clr_reg = gpio_port + (GPIO_CLR_OFFSET / sizeof(uint32_t))`. -/
def clr_reg_index : Nat := GPIO_CLR_OFFSET / SIZEOF_UINT32

/-- The statement `*reg = (1<<TOGGLE_GPIO);` for the register at word index `reg`: the new page
contents and the value stored. -/
def write_toggle (w : Window) (reg : Nat) : Option (Window × Nat) :=
  match shl_int 1 TOGGLE_GPIO with
  | some v =>
    match store w reg (to_uint32 v) with
    | some w1 => some (w1, to_uint32 v)
    | none => none
  | none => none

/-- One iteration of `do { last_nsec = current_time.tv_nsec; if (clock_gettime(...)) abort(); }
while (last_nsec <= current_time.tv_nsec);` and, when the loop exits, the register write that
follows it (`reg` is the register written, `next` the control state after the write). -/
def poll_step (s : State) (reg : Nat) (next : Ctl) (r : ClockRead) : State × List Event :=
  let last := s.tv_nsec
  match r with
  | ClockRead.fail =>
    ({ s with ctl := Ctl.aborted, last_nsec := last }, [Event.clock_gettime r, Event.abort])
  | ClockRead.ok t =>
    if last ≤ t then
      ({ s with last_nsec := last, tv_nsec := t }, [Event.clock_gettime r])
    else
      match write_toggle s.window reg with
      | some (w1, v) =>
        ({ ctl := next, last_nsec := last, tv_nsec := t, window := w1 },
          [Event.clock_gettime r, Event.store reg v])
      | none =>
        ({ s with ctl := Ctl.fault, last_nsec := last, tv_nsec := t },
          [Event.clock_gettime r, Event.invalid_access reg])

/-- The statements after a register write: `last_nsec = current_time.tv_nsec;
clock_gettime(...); printf("Signal: ...")`, followed by the `usleep(900 * 1000)` that precedes
the next polling loop. The status of this `clock_gettime` call is not inspected. -/
def stamp_step (s : State) (next : Ctl) (r : ClockRead) : State × List Event :=
  let last := s.tv_nsec
  let cur := match r with
    | ClockRead.ok t => t
    | ClockRead.fail => s.tv_nsec
  ({ s with ctl := next, last_nsec := last, tv_nsec := cur },
    [Event.clock_gettime r, Event.printf "Signal: %lu - %lu ns\n" [last, cur],
     Event.usleep (900 * 1000)])

/-- Advance the loop to just before its next `clock_gettime` call, given the result `r` of the
current one. A process that has stopped makes no further step. -/
def step (s : State) (r : ClockRead) : State × List Event :=
  match s.ctl with
  | Ctl.poll_rising => poll_step s set_reg_index Ctl.stamp_rising r
  | Ctl.stamp_rising => stamp_step s Ctl.poll_falling r
  | Ctl.poll_falling => poll_step s clr_reg_index Ctl.stamp_falling r
  | Ctl.stamp_falling => stamp_step s Ctl.poll_rising r
  | Ctl.fault => (s, [])
  | Ctl.aborted => (s, [])
  | Ctl.returned => (s, [])

/-- The `for (;;)` loop driven by a finite list of clock reads: the state reached when the
reads are used up, and the events emitted on the way. -/
def run_loop (s : State) : List ClockRead → State × List Event
  | [] => (s, [])
  | r :: rs =>
    let p := step s r
    let q := run_loop p.1 rs
    (q.1, p.2 ++ q.2)

/-- Outcome of a run of `run_cpu_direct`. -/
structure Run where
  /-- Control state reached. -/
  ctl : Ctl
  /-- Events in program order. -/
  trace : List Event
  /-- Page contents, when a mapping exists. -/
  window : Option Window

/-- Embedding of `void run_cpu_direct()` run against environment `env` until the clock reads `clock` are
used up. -/
def run_cpu_direct (env : Env) (clock : List ClockRead) : Run :=
  match mmap_bcm_register env GPIO_REGISTER_BASE with
  | (MapResult.undefined, tr) => { ctl := Ctl.fault, trace := tr, window := none }
  | (MapResult.null, tr) =>
    { ctl := Ctl.fault, trace := tr ++ [Event.invalid_access (fsel_word TOGGLE_GPIO)],
      window := none }
  | (MapResult.mapped w, tr) =>
    match initialize_gpio_for_output w TOGGLE_GPIO with
    | none =>
      { ctl := Ctl.fault, trace := tr ++ [Event.invalid_access (fsel_word TOGGLE_GPIO)],
        window := some w }
    | some (w2, tr_init) =>
      let tr_setup := tr ++ tr_init ++
        [Event.sched_setscheduler 0 SCHED_FIFO 99 env.sched_ret,
         Event.printf "Starting pulses 1 per second.\n" [],
         Event.usleep (900 * 1000)]
      let p := run_loop { ctl := Ctl.poll_rising, last_nsec := 0, tv_nsec := 0, window := w2 } clock
      { ctl := p.1.ctl, trace := tr_setup ++ p.2, window := some p.1.window }

/-! ## Trace projections -/

/-- The register a Set/Clear write goes to: the word index of a store to the Set or the Clear
register, `none` for every other event. -/
def set_clr_write : Event → Option Nat
  | Event.store idx _ => if idx = set_reg_index ∨ idx = clr_reg_index then some idx else none
  | _ => none

/-- Word indices of the writes to the Set and Clear registers, in order. -/
def set_clr_writes (tr : List Event) : List Nat := tr.filterMap set_clr_write

/-- The sequence of `n` register indices that alternates between Set and Clear, starting with
Set when `first_set` holds. -/
def alternating (first_set : Bool) : Nat → List Nat
  | 0 => []
  | n + 1 => (if first_set then set_reg_index else clr_reg_index) :: alternating (!first_set) n

/-- Whether the next Set/Clear write of the loop, seen from a control state, goes to Set. -/
def next_is_set : Ctl → Bool
  | Ctl.poll_rising => true
  | Ctl.stamp_rising => false
  | Ctl.poll_falling => false
  | Ctl.stamp_falling => true
  | _ => true

/-- Whether a control state lies inside the `for (;;)` loop. -/
def in_loop : Ctl → Bool
  | Ctl.poll_rising => true
  | Ctl.stamp_rising => true
  | Ctl.poll_falling => true
  | Ctl.stamp_falling => true
  | _ => false

/-- The last element of `c :: samples`. -/
def last_sample (c : Int) : List Int → Int
  | [] => c
  | x :: xs => last_sample x xs

/-- An environment in which the device opens as descriptor 3, the mapping succeeds over a page
of zero words, and the scheduling request succeeds. -/
def example_env : Env := { open_ret := 3, mmap_ok := true, page := fun _ => 0, sched_ret := 0 }

/-- An environment in which opening `/dev/mem` fails (return value -1). -/
def open_fail_env : Env := { open_ret := -1, mmap_ok := false, page := fun _ => 0, sched_ret := 0 }

/-- An environment in which `/dev/mem` opens as descriptor 3 and `mmap` fails. -/
def mmap_fail_env : Env := { open_ret := 3, mmap_ok := false, page := fun _ => 0, sched_ret := 0 }

/-- An environment like `example_env` in which `sched_setscheduler` fails (return value -1). -/
def sched_fail_env : Env := { open_ret := 3, mmap_ok := true, page := fun _ => 0, sched_ret := -1 }

/-- Whether `mmap_bcm_register` returned `NULL`. -/
def MapResult.is_null : MapResult → Bool
  | MapResult.null => true
  | _ => false

/-- The state in which `run_cpu_direct` enters its loop when the mapping succeeded. -/
def loop_entry (w : Window) : State :=
  { ctl := Ctl.poll_rising, last_nsec := 0, tv_nsec := 0, window := w }

/-- Whether an event writes to the program's log output (stdout or stderr). -/
def is_log : Event → Bool
  | Event.perror _ => true
  | Event.fprintf_stderr _ _ => true
  | Event.printf _ _ => true
  | _ => false

/-- The log output of a trace. -/
def log_output (tr : List Event) : List Event := tr.filter is_log

/-- Whether an event reads or writes memory through the window pointer. -/
def is_window_access : Event → Bool
  | Event.load _ => true
  | Event.store _ _ => true
  | Event.invalid_access _ => true
  | _ => false

/-- Value of the 3-bit function-select field of `bit` inside a function-select word. -/
def fsel_field (word : Nat) (bit : Int) : Nat := (word >>> (fsel_shift bit).toNat) &&& 7

/-! ## Word-level form of the pin configuration -/

/-- The word that line 60 stores for old word `x` and shift count `s`. -/
def fsel_mid (x s : Nat) : Nat := (x % 2 ^ 32 &&& (2 ^ 32 - (7 * 2 ^ s + 1))) % 2 ^ 32

/-- The word that line 61 stores when line 60 started from `x`, for shift count `s`. -/
def fsel_out (x s : Nat) : Nat := (fsel_mid x s ||| 2 ^ s) % 2 ^ 32

/-! ## Machine arithmetic lemmas -/

theorem fsel_word_natCast (n : Nat) : fsel_word (n : Int) = ((n / 10 : Nat) : Int) := by
  unfold fsel_word
  exact (Int.ofNat_tdiv n 10).symm

theorem fsel_shift_natCast (n : Nat) : fsel_shift (n : Int) = ((n % 10 * 3 : Nat) : Int) := by
  unfold fsel_shift
  have h : (n : Int).tmod 10 = ((n % 10 : Nat) : Int) := (Int.ofNat_tmod n 10).symm
  rw [h]
  push_cast
  rfl

theorem shl_int_natCast (a s : Nat) (hs : s < 32) (h : a * 2 ^ s < 2 ^ 31) :
    shl_int (a : Int) (s : Int) = some ((a * 2 ^ s : Nat) : Int) := by
  unfold shl_int INT_MAX
  have h1 : (0 : Int) ≤ (a : Int) := Int.ofNat_nonneg a
  have h2 : (0 : Int) ≤ (s : Int) := Int.ofNat_nonneg s
  have h3 : (s : Int) < 32 := by exact_mod_cast hs
  have h4 : (a : Int) * 2 ^ (s : Int).toNat ≤ 2 ^ 31 - 1 := by
    rw [Int.toNat_ofNat]
    have : ((a * 2 ^ s : Nat) : Int) < 2 ^ 31 := by exact_mod_cast h
    push_cast at this
    omega
  rw [if_pos ⟨h1, h2, h3, h4⟩, Int.toNat_ofNat]
  push_cast
  rfl

theorem to_uint32_natCast (m : Nat) (h : m < 2 ^ 32) : to_uint32 (m : Int) = m := by
  unfold to_uint32
  have : ((m : Int) % 2 ^ 32) = (m : Int) := by
    apply Int.emod_eq_of_lt (Int.ofNat_nonneg m)
    exact_mod_cast h
  rw [this, Int.toNat_ofNat]

theorem to_uint32_not_int (m : Nat) (h : m < 2 ^ 32) :
    to_uint32 (not_int (m : Int)) = 2 ^ 32 - (m + 1) := by
  unfold to_uint32 not_int
  norm_num at h ⊢
  omega

/-! ## Lemmas on the pin configuration -/

theorem fsel_mid_lt (x s : Nat) : fsel_mid x s < 2 ^ 32 :=
  Nat.mod_lt _ (by norm_num)

theorem fsel_out_lt (x s : Nat) : fsel_out x s < 2 ^ 32 :=
  Nat.mod_lt _ (by norm_num)

theorem shift_bounds (n : Nat) :
    n % 10 * 3 < 32 ∧ 7 * 2 ^ (n % 10 * 3) < 2 ^ 31 ∧ 1 * 2 ^ (n % 10 * 3) < 2 ^ 31 := by
  have h : n % 10 < 10 := Nat.mod_lt _ (by norm_num)
  generalize n % 10 = k at h
  interval_cases k <;> norm_num

theorem load_natCast (w : Window) (k : Nat) (h : k < PAGE_WORDS) :
    load w (k : Int) = some (w k % 2 ^ 32) := by
  unfold load
  have h2 : ((k : Int)) < (PAGE_WORDS : Int) := by exact_mod_cast h
  rw [if_pos ⟨Int.ofNat_nonneg k, h2⟩, Int.toNat_ofNat]

theorem store_natCast (w : Window) (k v : Nat) (h : k < PAGE_WORDS) :
    store w (k : Int) v = some (Function.update w k (v % 2 ^ 32)) := by
  unfold store
  have h2 : ((k : Int)) < (PAGE_WORDS : Int) := by exact_mod_cast h
  rw [if_pos ⟨Int.ofNat_nonneg k, h2⟩, Int.toNat_ofNat]

theorem fsel_clear_natCast (w : Window) (n : Nat) (h : n / 10 < PAGE_WORDS) :
    fsel_clear w (n : Int) =
      some (Function.update w (n / 10) (fsel_mid (w (n / 10)) (n % 10 * 3)),
        [Event.load (n / 10), Event.store (n / 10) (fsel_mid (w (n / 10)) (n % 10 * 3))]) := by
  obtain ⟨hs, h7, _⟩ := shift_bounds n
  have h7b : 7 * 2 ^ (n % 10 * 3) < 2 ^ 32 := by omega
  unfold fsel_clear
  rw [fsel_word_natCast, fsel_shift_natCast]
  have e7 := shl_int_natCast 7 (n % 10 * 3) hs h7
  rw [Nat.cast_ofNat] at e7
  rw [e7, load_natCast w _ h]
  simp only [to_uint32_not_int _ h7b, Int.toNat_ofNat]
  rw [store_natCast _ _ _ h]
  simp only [fsel_mid, Nat.mod_mod]

theorem fsel_set_natCast (w : Window) (n : Nat) (h : n / 10 < PAGE_WORDS) :
    fsel_set w (n : Int) =
      some (Function.update w (n / 10) ((w (n / 10) % 2 ^ 32 ||| 2 ^ (n % 10 * 3)) % 2 ^ 32),
        [Event.load (n / 10),
         Event.store (n / 10) ((w (n / 10) % 2 ^ 32 ||| 2 ^ (n % 10 * 3)) % 2 ^ 32)]) := by
  obtain ⟨hs, _, h1⟩ := shift_bounds n
  have h1b : 1 * 2 ^ (n % 10 * 3) < 2 ^ 32 := by omega
  unfold fsel_set
  rw [fsel_word_natCast, fsel_shift_natCast]
  have e1 := shl_int_natCast 1 (n % 10 * 3) hs h1
  rw [Nat.cast_one] at e1
  rw [e1, load_natCast w _ h]
  simp only [to_uint32_natCast _ h1b, Int.toNat_ofNat]
  rw [store_natCast _ _ _ h]
  simp only [Nat.mod_mod, Nat.one_mul]

theorem initialize_gpio_for_output_natCast (w : Window) (n : Nat) (h : n / 10 < PAGE_WORDS) :
    initialize_gpio_for_output w (n : Int) =
      some (Function.update w (n / 10) (fsel_out (w (n / 10)) (n % 10 * 3)),
        [Event.load (n / 10), Event.store (n / 10) (fsel_mid (w (n / 10)) (n % 10 * 3)),
         Event.load (n / 10), Event.store (n / 10) (fsel_out (w (n / 10)) (n % 10 * 3))]) := by
  unfold initialize_gpio_for_output
  rw [fsel_clear_natCast w n h]
  simp only
  rw [fsel_set_natCast _ n h]
  simp only [Function.update_same, Function.update_idem, List.cons_append, List.nil_append,
    fsel_out, Nat.mod_eq_of_lt (fsel_mid_lt _ _)]

theorem seven_shl_testBit (s j : Nat) :
    Nat.testBit (7 * 2 ^ s) j = (decide (s ≤ j) && decide (j < s + 3)) := by
  have e : 7 * 2 ^ s = (2 ^ 3 - 1) <<< s := by
    rw [Nat.shiftLeft_eq]
    norm_num
  rw [e, Nat.testBit_shiftLeft, Nat.testBit_two_pow_sub_one]
  by_cases h : s ≤ j
  · have h3 : (j - s < 3) = (j < s + 3) := by
      apply propext
      omega
    simp only [h3, ge_iff_le]
  · simp [h]

/-- Bit `i` of the word left by the configuration: inside the three-bit field it is the bit of
the value 1, elsewhere (below bit 32) it is the old bit. -/
theorem fsel_out_testBit (x s i : Nat) (hs : s + 3 ≤ 32) :
    (fsel_out x s).testBit i =
      (decide (i < 32) && ((x.testBit i && !(decide (s ≤ i) && decide (i < s + 3))) ||
        decide (i = s))) := by
  have h7 : 7 * 2 ^ s < 2 ^ 32 := by
    have : 2 ^ s ≤ 2 ^ 29 := Nat.pow_le_pow_right (by norm_num) (by omega)
    omega
  unfold fsel_out fsel_mid
  simp only [Nat.testBit_mod_two_pow, Nat.testBit_or, Nat.testBit_and,
    Nat.testBit_two_pow_sub_succ h7, seven_shl_testBit, Nat.testBit_two_pow]
  clear h7
  have e : decide (s = i) = decide (i = s) := by
    apply decide_eq_decide.mpr
    exact eq_comm
  rw [e]
  generalize x.testBit i = a
  generalize decide (i < 32) = b
  generalize (decide (s ≤ i) && decide (i < s + 3)) = c
  generalize decide (i = s) = d
  cases a <;> cases b <;> cases c <;> cases d <;> rfl

theorem fsel_out_idem (x s : Nat) (hs : s + 3 ≤ 32) : fsel_out (fsel_out x s) s = fsel_out x s := by
  apply Nat.eq_of_testBit_eq
  intro i
  rw [fsel_out_testBit _ s i hs, fsel_out_testBit x s i hs]
  generalize x.testBit i = a
  generalize decide (i < 32) = b
  generalize (decide (s ≤ i) && decide (i < s + 3)) = c
  generalize decide (i = s) = d
  cases a <;> cases b <;> cases c <;> cases d <;> rfl

theorem fsel_out_field (x s : Nat) (hs : s + 3 ≤ 32) : (fsel_out x s >>> s) &&& 7 = 1 := by
  apply Nat.eq_of_testBit_eq
  intro j
  have e7 : (7 : Nat) = 2 ^ 3 - 1 := by norm_num
  have e1 : (1 : Nat) = 2 ^ 0 := by norm_num
  rw [Nat.testBit_and, Nat.testBit_shiftRight, fsel_out_testBit x s (s + j) hs, e7,
    Nat.testBit_two_pow_sub_one, e1, Nat.testBit_two_pow]
  by_cases h0 : j = 0
  · subst h0
    have h32 : s < 32 := by omega
    simp [h32]
  · by_cases h3 : j < 3
    · have hA : s ≤ s + j := by omega
      have hB : s + j < s + 3 := by omega
      have hC : ¬ (s + j = s) := by omega
      have hD : ¬ (0 = j) := by omega
      simp [hA, hB, hC, hD]
    · have hD : ¬ (0 = j) := by omega
      simp [h3, hD]

theorem natCast_ediv_ten (n : Nat) : (n : Int) / 10 = ((n / 10 : Nat) : Int) := by
  norm_cast

theorem natCast_emod_ten_shift (n : Nat) : (n : Int) % 10 * 3 = ((n % 10 * 3 : Nat) : Int) := by
  push_cast
  rfl

/-! ## Theorems: pin configuration -/

/-- C1: for every page contents and every pin `bit ≥ 0` whose word index `bit/10` lies inside the
page, `initialize_gpio_for_output` is defined, leaves every word other than word `bit/10`
unchanged, and inside word `bit/10` leaves every bit of the 32-bit word outside the three bits
`[(bit mod 10)*3, (bit mod 10)*3 + 2]` with the value it had before. -/
theorem C1_initialize_gpio_frame (w : Window) (bit : Int) (hp : 0 ≤ bit)
    (hw : bit / 10 < PAGE_WORDS) :
    ∃ w2 tr, initialize_gpio_for_output w bit = some (w2, tr) ∧
      (∀ j : Nat, (j : Int) ≠ bit / 10 → w2 j = w j) ∧
      (∀ i : Nat, i < 32 →
        ¬ ((bit % 10 * 3).toNat ≤ i ∧ i ≤ (bit % 10 * 3).toNat + 2) →
        (w2 (bit / 10).toNat).testBit i = (w (bit / 10).toNat).testBit i) := by
  obtain ⟨n, rfl⟩ := Int.eq_ofNat_of_zero_le hp
  rw [natCast_ediv_ten] at hw ⊢
  rw [natCast_emod_ten_shift]
  have hk : n / 10 < PAGE_WORDS := by exact_mod_cast hw
  have hs : n % 10 * 3 + 3 ≤ 32 := by omega
  refine ⟨_, _, initialize_gpio_for_output_natCast w n hk, ?_, ?_⟩
  · intro j hj
    have hne : j ≠ n / 10 := fun h => hj (by rw [h])
    exact Function.update_noteq hne _ _
  · intro i hi hout
    simp only [Int.toNat_ofNat] at hout ⊢
    rw [Function.update_same, fsel_out_testBit _ _ i hs]
    have h1 : ¬ (n % 10 * 3 ≤ i ∧ i < n % 10 * 3 + 3) := fun h => hout ⟨h.1, by omega⟩
    have h2 : ¬ (i = n % 10 * 3) := fun h => hout ⟨by omega, by omega⟩
    by_cases hA : n % 10 * 3 ≤ i
    · have hB : ¬ (i < n % 10 * 3 + 3) := fun h => h1 ⟨hA, h⟩
      simp [hi, hA, hB, h2]
    · simp [hi, hA, h2]

/-- Witness for C1: pin 26 on a page whose words are all `0xFFFFFFFF`. -/
theorem C1_initialize_gpio_frame_witness :
    ∃ w2 tr, initialize_gpio_for_output (fun _ => 0xFFFFFFFF) 26 = some (w2, tr) ∧
      (∀ j : Nat, (j : Int) ≠ (26 : Int) / 10 → w2 j = (fun _ => 0xFFFFFFFF : Window) j) ∧
      (∀ i : Nat, i < 32 →
        ¬ (((26 : Int) % 10 * 3).toNat ≤ i ∧ i ≤ ((26 : Int) % 10 * 3).toNat + 2) →
        (w2 ((26 : Int) / 10).toNat).testBit i =
          ((fun _ => 0xFFFFFFFF : Window) ((26 : Int) / 10).toNat).testBit i) :=
  C1_initialize_gpio_frame (fun _ => 0xFFFFFFFF) 26 (by decide) (by decide)

/-- C2: `initialize_gpio_for_output` is idempotent: for every page contents and every valid pin,
a second call with the same pin leaves exactly the page contents the first call produced. -/
theorem C2_initialize_gpio_idempotent (w : Window) (bit : Int) (hp : 0 ≤ bit)
    (hw : bit / 10 < PAGE_WORDS) :
    ∃ w1 t1 t2, initialize_gpio_for_output w bit = some (w1, t1) ∧
      initialize_gpio_for_output w1 bit = some (w1, t2) := by
  obtain ⟨n, rfl⟩ := Int.eq_ofNat_of_zero_le hp
  rw [natCast_ediv_ten] at hw
  have hk : n / 10 < PAGE_WORDS := by exact_mod_cast hw
  have hs : n % 10 * 3 + 3 ≤ 32 := by omega
  have h1 := initialize_gpio_for_output_natCast w n hk
  have h2 := initialize_gpio_for_output_natCast
    (Function.update w (n / 10) (fsel_out (w (n / 10)) (n % 10 * 3))) n hk
  simp only [Function.update_same, Function.update_idem, fsel_out_idem _ _ hs] at h2
  exact ⟨_, _, _, h1, h2⟩

/-- Witness for C2: pin 26 on a page whose words are all `0xFFFFFFFF`. -/
theorem C2_initialize_gpio_idempotent_witness :
    ∃ w1 t1 t2, initialize_gpio_for_output (fun _ => 0xFFFFFFFF) 26 = some (w1, t1) ∧
      initialize_gpio_for_output w1 26 = some (w1, t2) :=
  C2_initialize_gpio_idempotent (fun _ => 0xFFFFFFFF) 26 (by decide) (by decide)

/-- C3: for every prior page contents and every valid pin, after `initialize_gpio_for_output`
the 3-bit field at bit offset `(bit mod 10)*3` of word `bit/10` holds 1 (output); the word index
and shift used by the code are `bit/10` and `(bit mod 10)*3`, the field ends at or below bit 30,
and pins 0, 9, 10, 26, 31 map to (0,0), (0,27), (1,0), (2,18), (3,3). -/
theorem C3_initialize_gpio_output_field (w : Window) (bit : Int) (hp : 0 ≤ bit)
    (hw : bit / 10 < PAGE_WORDS) :
    (∃ w2 tr, initialize_gpio_for_output w bit = some (w2, tr) ∧
      (w2 (bit / 10).toNat >>> (bit % 10 * 3).toNat) &&& 7 = 1 ∧
      fsel_field (w2 (fsel_word bit).toNat) bit = 1) ∧
    fsel_word bit = bit / 10 ∧ fsel_shift bit = bit % 10 * 3 ∧
    0 ≤ fsel_shift bit ∧ fsel_shift bit + 3 ≤ 30 ∧
    (fsel_word 0, fsel_shift 0) = (0, 0) ∧ (fsel_word 9, fsel_shift 9) = (0, 27) ∧
    (fsel_word 10, fsel_shift 10) = (1, 0) ∧ (fsel_word 26, fsel_shift 26) = (2, 18) ∧
    (fsel_word 31, fsel_shift 31) = (3, 3) := by
  obtain ⟨n, rfl⟩ := Int.eq_ofNat_of_zero_le hp
  rw [natCast_ediv_ten] at hw ⊢
  rw [natCast_emod_ten_shift, fsel_word_natCast, fsel_shift_natCast]
  have hk : n / 10 < PAGE_WORDS := by exact_mod_cast hw
  have hs : n % 10 * 3 + 3 ≤ 32 := by omega
  refine ⟨⟨_, _, initialize_gpio_for_output_natCast w n hk, ?_, ?_⟩, rfl, rfl, ?_, ?_,
    by decide, by decide, by decide, by decide, by decide⟩
  · simp only [Int.toNat_ofNat, Function.update_same]
    exact fsel_out_field _ _ hs
  · unfold fsel_field
    rw [fsel_shift_natCast]
    simp only [Int.toNat_ofNat, Function.update_same]
    exact fsel_out_field _ _ hs
  · exact Int.ofNat_nonneg _
  · have : n % 10 * 3 + 3 ≤ 30 := by omega
    exact_mod_cast this

/-- Witness for C3: pin 26 on a page whose words are all `0xFFFFFFFF`. -/
theorem C3_initialize_gpio_output_field_witness :
    (∃ w2 tr, initialize_gpio_for_output (fun _ => 0xFFFFFFFF) 26 = some (w2, tr) ∧
      (w2 ((26 : Int) / 10).toNat >>> ((26 : Int) % 10 * 3).toNat) &&& 7 = 1 ∧
      fsel_field (w2 (fsel_word 26).toNat) 26 = 1) ∧
    fsel_word 26 = (26 : Int) / 10 ∧ fsel_shift 26 = (26 : Int) % 10 * 3 ∧
    0 ≤ fsel_shift 26 ∧ fsel_shift 26 + 3 ≤ 30 ∧
    (fsel_word 0, fsel_shift 0) = (0, 0) ∧ (fsel_word 9, fsel_shift 9) = (0, 27) ∧
    (fsel_word 10, fsel_shift 10) = (1, 0) ∧ (fsel_word 26, fsel_shift 26) = (2, 18) ∧
    (fsel_word 31, fsel_shift 31) = (3, 3) :=
  C3_initialize_gpio_output_field (fun _ => 0xFFFFFFFF) 26 (by decide) (by decide)

/-! ## Lemmas on the loop -/

theorem toggle_value : shl_int 1 TOGGLE_GPIO = some 0x04000000 := by
  decide

theorem write_toggle_eq (w : Window) (reg : Nat) (h : reg < PAGE_WORDS) :
    write_toggle w reg = some (Function.update w reg 0x04000000, 0x04000000) := by
  unfold write_toggle
  rw [toggle_value]
  have e : to_uint32 0x04000000 = 0x04000000 := by decide
  simp only [e]
  rw [store_natCast _ _ _ h]
  have e2 : 0x04000000 % 2 ^ 32 = 0x04000000 := by norm_num
  simp only [e2]

theorem set_reg_in_page : set_reg_index < PAGE_WORDS := by
  decide

theorem clr_reg_in_page : clr_reg_index < PAGE_WORDS := by
  decide

theorem run_loop_append (s : State) (a b : List ClockRead) :
    run_loop s (a ++ b) =
      ((run_loop (run_loop s a).1 b).1, (run_loop s a).2 ++ (run_loop (run_loop s a).1 b).2) := by
  induction a generalizing s with
  | nil => simp [run_loop]
  | cons r rs ih => simp [run_loop, ih, List.append_assoc]

theorem run_loop_stopped (s : State) (clk : List ClockRead)
    (h : s.ctl = Ctl.fault ∨ s.ctl = Ctl.aborted ∨ s.ctl = Ctl.returned) :
    run_loop s clk = (s, []) := by
  induction clk with
  | nil => rfl
  | cons r rs ih =>
    have hs : step s r = (s, []) := by
      unfold step
      rcases h with h | h | h <;> rw [h]
    simp [run_loop, hs, ih]

theorem poll_step_fail (s : State) (reg : Nat) (next : Ctl) :
    poll_step s reg next ClockRead.fail =
      ({ s with ctl := Ctl.aborted, last_nsec := s.tv_nsec },
        [Event.clock_gettime ClockRead.fail, Event.abort]) := rfl

theorem poll_step_stay (s : State) (reg : Nat) (next : Ctl) (t : Int) (h : s.tv_nsec ≤ t) :
    poll_step s reg next (ClockRead.ok t) =
      ({ s with last_nsec := s.tv_nsec, tv_nsec := t },
        [Event.clock_gettime (ClockRead.ok t)]) := by
  unfold poll_step
  simp only [if_pos h]

theorem poll_step_exit (s : State) (reg : Nat) (next : Ctl) (t : Int) (h : t < s.tv_nsec)
    (hr : reg < PAGE_WORDS) :
    poll_step s reg next (ClockRead.ok t) =
      ({ ctl := next, last_nsec := s.tv_nsec, tv_nsec := t,
         window := Function.update s.window reg 0x04000000 },
        [Event.clock_gettime (ClockRead.ok t), Event.store reg 0x04000000]) := by
  unfold poll_step
  simp only [if_neg (not_le.mpr h), write_toggle_eq _ _ hr]

theorem set_clr_writes_append (a b : List Event) :
    set_clr_writes (a ++ b) = set_clr_writes a ++ set_clr_writes b := by
  unfold set_clr_writes
  exact List.filterMap_append _ _ _

theorem writes_of_poll_fail :
    set_clr_writes [Event.clock_gettime ClockRead.fail, Event.abort] = [] := rfl

theorem writes_of_poll_stay (t : Int) :
    set_clr_writes [Event.clock_gettime (ClockRead.ok t)] = [] := rfl

theorem writes_of_poll_exit_set (t : Int) (v : Nat) :
    set_clr_writes [Event.clock_gettime (ClockRead.ok t), Event.store set_reg_index v] =
      [set_reg_index] := rfl

theorem writes_of_poll_exit_clr (t : Int) (v : Nat) :
    set_clr_writes [Event.clock_gettime (ClockRead.ok t), Event.store clr_reg_index v] =
      [clr_reg_index] := rfl

theorem writes_of_stamp (r : ClockRead) (fmt : String) (args : List Int) (us : Nat) :
    set_clr_writes [Event.clock_gettime r, Event.printf fmt args, Event.usleep us] = [] := rfl

/-- From any state, the Set/Clear writes of the loop alternate, beginning with the register that
the control state is heading for. -/
theorem run_loop_writes_alternate (clk : List ClockRead) :
    ∀ s : State, ∃ n, set_clr_writes (run_loop s clk).2 = alternating (next_is_set s.ctl) n := by
  induction clk with
  | nil =>
    intro s
    exact ⟨0, rfl⟩
  | cons r rs ih =>
    intro s
    obtain ⟨ctl, l, c, w⟩ := s
    simp only [run_loop, set_clr_writes_append]
    cases ctl with
    | fault => exact ⟨0, by simp [step, run_loop_stopped, set_clr_writes, alternating]⟩
    | aborted => exact ⟨0, by simp [step, run_loop_stopped, set_clr_writes, alternating]⟩
    | returned => exact ⟨0, by simp [step, run_loop_stopped, set_clr_writes, alternating]⟩
    | poll_rising =>
      simp only [step]
      cases r with
      | fail =>
        rw [poll_step_fail, run_loop_stopped _ _ (Or.inr (Or.inl rfl))]
        exact ⟨0, rfl⟩
      | ok t =>
        by_cases h : c ≤ t
        · rw [poll_step_stay _ _ _ _ h, writes_of_poll_stay]
          exact ih _
        · rw [poll_step_exit _ _ _ _ (not_le.mp h) set_reg_in_page, writes_of_poll_exit_set]
          obtain ⟨n, hn⟩ := ih
            { ctl := Ctl.stamp_rising, last_nsec := c, tv_nsec := t,
              window := Function.update w set_reg_index 0x04000000 }
          exact ⟨n + 1, by rw [hn]; rfl⟩
    | poll_falling =>
      simp only [step]
      cases r with
      | fail =>
        rw [poll_step_fail, run_loop_stopped _ _ (Or.inr (Or.inl rfl))]
        exact ⟨0, rfl⟩
      | ok t =>
        by_cases h : c ≤ t
        · rw [poll_step_stay _ _ _ _ h, writes_of_poll_stay]
          exact ih _
        · rw [poll_step_exit _ _ _ _ (not_le.mp h) clr_reg_in_page, writes_of_poll_exit_clr]
          obtain ⟨n, hn⟩ := ih
            { ctl := Ctl.stamp_falling, last_nsec := c, tv_nsec := t,
              window := Function.update w clr_reg_index 0x04000000 }
          exact ⟨n + 1, by rw [hn]; rfl⟩
    | stamp_rising =>
      simp only [step, stamp_step, writes_of_stamp, List.nil_append]
      exact ih _
    | stamp_falling =>
      simp only [step, stamp_step, writes_of_stamp, List.nil_append]
      exact ih _

theorem alternating_get (n : Nat) :
    ∀ (b : Bool) (k idx : Nat), (alternating b n)[k]? = some idx →
      idx = if (decide (k % 2 = 0) == b) then set_reg_index else clr_reg_index := by
  induction n with
  | zero =>
    intro b k idx h
    simp [alternating] at h
  | succ n ih =>
    intro b k idx h
    cases k with
    | zero =>
      simp only [alternating, List.getElem?_cons_zero, Option.some.injEq] at h
      cases b <;> simp [← h]
    | succ k =>
      simp only [alternating, List.getElem?_cons_succ] at h
      have h2 := ih (!b) k idx h
      rw [h2]
      have hk : (k + 1) % 2 = 0 ↔ ¬ (k % 2 = 0) := by omega
      by_cases h0 : k % 2 = 0 <;> cases b <;> simp [h0, hk]

theorem alternating_chain (n : Nat) :
    ∀ b : Bool, List.Chain' (fun a c => a ≠ c) (alternating b n) := by
  induction n with
  | zero =>
    intro b
    exact List.chain'_nil
  | succ n ih =>
    intro b
    cases n with
    | zero => exact List.chain'_singleton _
    | succ m =>
      have h := ih (!b)
      simp only [alternating] at h ⊢
      refine List.Chain'.cons ?_ h
      cases b <;> decide

theorem run_loop_in_loop (clk : List ClockRead) :
    ∀ s : State, in_loop s.ctl = true → (∀ r ∈ clk, r ≠ ClockRead.fail) →
      in_loop (run_loop s clk).1.ctl = true := by
  induction clk with
  | nil =>
    intro s hs _
    exact hs
  | cons r rs ih =>
    intro s hs hok
    obtain ⟨ctl, l, c, w⟩ := s
    have hr : r ≠ ClockRead.fail := hok r (List.mem_cons_self _ _)
    have hrs : ∀ q ∈ rs, q ≠ ClockRead.fail := fun q hq => hok q (List.mem_cons_of_mem _ hq)
    simp only [run_loop]
    apply ih _ _ hrs
    cases r with
    | fail => exact absurd rfl hr
    | ok t =>
      cases ctl with
      | fault => exact absurd hs Bool.false_ne_true
      | aborted => exact absurd hs Bool.false_ne_true
      | returned => exact absurd hs Bool.false_ne_true
      | poll_rising =>
        simp only [step]
        by_cases h : c ≤ t
        · rw [poll_step_stay _ _ _ _ h]
          rfl
        · rw [poll_step_exit _ _ _ _ (not_le.mp h) set_reg_in_page]
          rfl
      | poll_falling =>
        simp only [step]
        by_cases h : c ≤ t
        · rw [poll_step_stay _ _ _ _ h]
          rfl
        · rw [poll_step_exit _ _ _ _ (not_le.mp h) clr_reg_in_page]
          rfl
      | stamp_rising => rfl
      | stamp_falling => rfl

theorem run_loop_never_returns (clk : List ClockRead) :
    ∀ s : State, in_loop s.ctl = true →
      in_loop (run_loop s clk).1.ctl = true ∨ (run_loop s clk).1.ctl = Ctl.aborted := by
  induction clk with
  | nil =>
    intro s hs
    exact Or.inl hs
  | cons r rs ih =>
    intro s hs
    obtain ⟨ctl, l, c, w⟩ := s
    simp only [run_loop]
    cases ctl with
    | fault => exact absurd hs Bool.false_ne_true
    | aborted => exact absurd hs Bool.false_ne_true
    | returned => exact absurd hs Bool.false_ne_true
    | poll_rising =>
      simp only [step]
      cases r with
      | fail =>
        rw [poll_step_fail, run_loop_stopped _ _ (Or.inr (Or.inl rfl))]
        exact Or.inr rfl
      | ok t =>
        by_cases h : c ≤ t
        · rw [poll_step_stay _ _ _ _ h]
          exact ih _ rfl
        · rw [poll_step_exit _ _ _ _ (not_le.mp h) set_reg_in_page]
          exact ih _ rfl
    | poll_falling =>
      simp only [step]
      cases r with
      | fail =>
        rw [poll_step_fail, run_loop_stopped _ _ (Or.inr (Or.inl rfl))]
        exact Or.inr rfl
      | ok t =>
        by_cases h : c ≤ t
        · rw [poll_step_stay _ _ _ _ h]
          exact ih _ rfl
        · rw [poll_step_exit _ _ _ _ (not_le.mp h) clr_reg_in_page]
          exact ih _ rfl
    | stamp_rising => exact ih _ rfl
    | stamp_falling => exact ih _ rfl

/-! ## Lemmas on `run_cpu_direct` -/

theorem mmap_gpio_mapped (env : Env) (hopen : 0 ≤ env.open_ret) (hmap : env.mmap_ok = true) :
    mmap_bcm_register env GPIO_REGISTER_BASE =
      (MapResult.mapped env.page,
        [Event.sys_open "/dev/mem" true true env.open_ret,
         Event.sys_mmap 4096 true true true env.open_ret 0xFE200000 true,
         Event.sys_close env.open_ret]) := by
  unfold mmap_bcm_register
  have h1 : ¬ env.open_ret < 0 := not_lt.mpr hopen
  have h2 : ¬ (PERI_BASE + GPIO_REGISTER_BASE < OFF_T_MIN ∨
      OFF_T_MAX < PERI_BASE + GPIO_REGISTER_BASE) := by decide
  have h3 : PERI_BASE + GPIO_REGISTER_BASE = 0xFE200000 := by decide
  simp only [if_neg h1, if_neg h2, hmap, h3, PAGE_SIZE]
  rfl

theorem initialize_toggle_gpio (w : Window) :
    initialize_gpio_for_output w TOGGLE_GPIO =
      some (Function.update w 2 (fsel_out (w 2) 18),
        [Event.load 2, Event.store 2 (fsel_mid (w 2) 18),
         Event.load 2, Event.store 2 (fsel_out (w 2) 18)]) :=
  initialize_gpio_for_output_natCast w 26 (by decide)

theorem run_cpu_direct_mapped (env : Env) (clk : List ClockRead) (hopen : 0 ≤ env.open_ret)
    (hmap : env.mmap_ok = true) :
    run_cpu_direct env clk =
      { ctl := (run_loop (loop_entry (Function.update env.page 2 (fsel_out (env.page 2) 18)))
          clk).1.ctl,
        trace :=
          [Event.sys_open "/dev/mem" true true env.open_ret,
           Event.sys_mmap 4096 true true true env.open_ret 0xFE200000 true,
           Event.sys_close env.open_ret,
           Event.load 2, Event.store 2 (fsel_mid (env.page 2) 18),
           Event.load 2, Event.store 2 (fsel_out (env.page 2) 18),
           Event.sched_setscheduler 0 SCHED_FIFO 99 env.sched_ret,
           Event.printf "Starting pulses 1 per second.\n" [],
           Event.usleep (900 * 1000)] ++
          (run_loop (loop_entry (Function.update env.page 2 (fsel_out (env.page 2) 18))) clk).2,
        window := some (run_loop (loop_entry (Function.update env.page 2
          (fsel_out (env.page 2) 18))) clk).1.window } := by
  unfold run_cpu_direct
  rw [mmap_gpio_mapped env hopen hmap]
  simp only [initialize_toggle_gpio, loop_entry, List.cons_append, List.nil_append,
    List.append_assoc]

theorem run_cpu_direct_null (env : Env) (clk : List ClockRead)
    (h : env.open_ret < 0 ∨ env.mmap_ok = false) :
    (run_cpu_direct env clk).ctl = Ctl.fault ∧
      (run_cpu_direct env clk).trace =
        (mmap_bcm_register env GPIO_REGISTER_BASE).2 ++ [Event.invalid_access 2] := by
  have h2 : ¬ (PERI_BASE + GPIO_REGISTER_BASE < OFF_T_MIN ∨
      OFF_T_MAX < PERI_BASE + GPIO_REGISTER_BASE) := by decide
  have h26 : fsel_word TOGGLE_GPIO = 2 := by decide
  unfold run_cpu_direct mmap_bcm_register
  by_cases h1 : env.open_ret < 0
  · simp [if_pos h1, h26]
  · have h3 : env.mmap_ok = false := h.resolve_left h1
    simp [if_neg h1, if_neg h2, h3, h26]

theorem setup_writes (a b c d e f g h i j : Event) (v1 v2 : Nat) (tl : List Event)
    (ha : set_clr_write a = none) (hb : set_clr_write b = none) (hc : set_clr_write c = none)
    (hh : set_clr_write h = none) (hi : set_clr_write i = none) (hj : set_clr_write j = none)
    (hd : d = Event.load 2) (he : e = Event.store 2 v1) (hf : f = Event.load 2)
    (hg : g = Event.store 2 v2) :
    set_clr_writes ([a, b, c, d, e, f, g, h, i, j] ++ tl) = set_clr_writes tl := by
  subst hd he hf hg
  have h2 : ∀ v, set_clr_write (Event.store 2 v) = none := fun v => by
    simp [set_clr_write, set_reg_index, clr_reg_index, GPIO_SET_OFFSET, GPIO_CLR_OFFSET,
      SIZEOF_UINT32]
  have hl : set_clr_write (Event.load 2) = none := rfl
  simp [set_clr_writes, List.filterMap_cons, ha, hb, hc, hh, hi, hj, h2, hl]

theorem run_cpu_direct_writes (env : Env) (clk : List ClockRead) (hopen : 0 ≤ env.open_ret)
    (hmap : env.mmap_ok = true) :
    set_clr_writes (run_cpu_direct env clk).trace =
      set_clr_writes
        (run_loop (loop_entry (Function.update env.page 2 (fsel_out (env.page 2) 18))) clk).2 := by
  rw [run_cpu_direct_mapped env clk hopen hmap]
  exact setup_writes _ _ _ _ _ _ _ _ _ _ _ _ _ rfl rfl rfl rfl rfl rfl rfl rfl rfl rfl

theorem run_loop_poll_fail (s : State) (rest : List ClockRead)
    (h : s.ctl = Ctl.poll_rising ∨ s.ctl = Ctl.poll_falling) :
    run_loop s (ClockRead.fail :: rest) =
      ({ s with ctl := Ctl.aborted, last_nsec := s.tv_nsec },
        [Event.clock_gettime ClockRead.fail, Event.abort]) := by
  have hs : step s ClockRead.fail =
      ({ s with ctl := Ctl.aborted, last_nsec := s.tv_nsec },
        [Event.clock_gettime ClockRead.fail, Event.abort]) := by
    unfold step
    rcases h with h | h <;> rw [h] <;> rfl
  simp only [run_loop, hs]
  rw [run_loop_stopped _ _ (Or.inr (Or.inl rfl))]
  rfl

theorem last_sample_eq_getLast (c : Int) (pre : List Int) (hne : pre ≠ []) :
    last_sample c pre = pre.getLast hne := by
  induction pre generalizing c with
  | nil => exact absurd rfl hne
  | cons a tl ih =>
    cases tl with
    | nil => rfl
    | cons b tl2 =>
      rw [List.getLast_cons_cons]
      exact ih a (List.cons_ne_nil _ _)

/-- While the samples do not decrease, a busy-poll loop keeps polling: it reads every sample,
writes nothing, and ends holding the last sample. -/
theorem run_loop_poll_nondecreasing (ctl : Ctl)
    (hctl : ctl = Ctl.poll_rising ∨ ctl = Ctl.poll_falling) (pre : List Int) :
    ∀ (l c : Int) (w : Window), List.Chain' (fun a b => a ≤ b) (c :: pre) →
      ∃ l2, run_loop { ctl := ctl, last_nsec := l, tv_nsec := c, window := w }
          (pre.map ClockRead.ok) =
        ({ ctl := ctl, last_nsec := l2, tv_nsec := last_sample c pre, window := w },
          pre.map (fun t => Event.clock_gettime (ClockRead.ok t))) := by
  induction pre with
  | nil =>
    intro l c w _
    exact ⟨l, rfl⟩
  | cons a tl ih =>
    intro l c w hch
    rw [List.chain'_cons] at hch
    obtain ⟨l2, h2⟩ := ih c a w hch.2
    refine ⟨l2, ?_⟩
    have hs : step { ctl := ctl, last_nsec := l, tv_nsec := c, window := w } (ClockRead.ok a) =
        ({ ctl := ctl, last_nsec := c, tv_nsec := a, window := w },
          [Event.clock_gettime (ClockRead.ok a)]) := by
      unfold step
      rcases hctl with h | h <;> subst h <;> exact poll_step_stay _ _ _ _ hch.1
    simp only [List.map_cons, run_loop, hs, h2, last_sample, List.singleton_append]

/-- A busy-poll loop leaves on a sample below the one it holds, and the register write follows. -/
theorem step_poll_wrap (ctl : Ctl) (hctl : ctl = Ctl.poll_rising ∨ ctl = Ctl.poll_falling)
    (l c x : Int) (w : Window) (hx : x < c) :
    step { ctl := ctl, last_nsec := l, tv_nsec := c, window := w } (ClockRead.ok x) =
      ({ ctl := if ctl = Ctl.poll_rising then Ctl.stamp_rising else Ctl.stamp_falling,
         last_nsec := c, tv_nsec := x,
         window := Function.update w
           (if ctl = Ctl.poll_rising then set_reg_index else clr_reg_index) 0x04000000 },
        [Event.clock_gettime (ClockRead.ok x),
         Event.store (if ctl = Ctl.poll_rising then set_reg_index else clr_reg_index)
           0x04000000]) := by
  unfold step
  rcases hctl with h | h <;> subst h
  · exact poll_step_exit _ _ _ _ hx set_reg_in_page
  · exact poll_step_exit _ _ _ _ hx clr_reg_in_page

/-! ## Theorems: the toggle loop -/

/-- C4: when the mapping succeeds and every clock read succeeds, the writes that
`run_cpu_direct` makes to the Set and Clear registers strictly alternate Set, Clear, Set, ...
starting with Set (the write number `k`, counted from 0, goes to Set exactly when `k` is even),
two consecutive writes never go to the same register, and the program is still inside the loop
after any number of reads; for arbitrary clock reads the only way out of the loop is `abort()`. -/
theorem C4_edge_alternation (env : Env) (clk : List ClockRead) (hopen : 0 ≤ env.open_ret)
    (hmap : env.mmap_ok = true) (hok : ∀ r ∈ clk, r ≠ ClockRead.fail) :
    (∀ k idx, (set_clr_writes (run_cpu_direct env clk).trace)[k]? = some idx →
      idx = if k % 2 = 0 then set_reg_index else clr_reg_index) ∧
    List.Chain' (fun a b => a ≠ b) (set_clr_writes (run_cpu_direct env clk).trace) ∧
    in_loop (run_cpu_direct env clk).ctl = true ∧
    (∀ clk2, in_loop (run_cpu_direct env clk2).ctl = true ∨
      (run_cpu_direct env clk2).ctl = Ctl.aborted) := by
  obtain ⟨n, hn⟩ := run_loop_writes_alternate clk
    (loop_entry (Function.update env.page 2 (fsel_out (env.page 2) 18)))
  rw [run_cpu_direct_writes env clk hopen hmap, hn]
  refine ⟨?_, alternating_chain n _, ?_, ?_⟩
  · intro k idx h
    have h2 := alternating_get n _ k idx h
    rw [h2]
    by_cases h0 : k % 2 = 0 <;> simp [h0, loop_entry, next_is_set]
  · rw [run_cpu_direct_mapped env clk hopen hmap]
    exact run_loop_in_loop clk _ rfl hok
  · intro clk2
    rw [run_cpu_direct_mapped env clk2 hopen hmap]
    exact run_loop_never_returns clk2 _ rfl

/-- Witness for C4: two wraps of the nanosecond counter. -/
theorem C4_edge_alternation_witness :
    (∀ k idx, (set_clr_writes (run_cpu_direct example_env
        [ClockRead.ok 999999500, ClockRead.ok 50, ClockRead.ok 60, ClockRead.ok 999999900,
         ClockRead.ok 20, ClockRead.ok 30]).trace)[k]? = some idx →
      idx = if k % 2 = 0 then set_reg_index else clr_reg_index) ∧
    List.Chain' (fun a b => a ≠ b) (set_clr_writes (run_cpu_direct example_env
        [ClockRead.ok 999999500, ClockRead.ok 50, ClockRead.ok 60, ClockRead.ok 999999900,
         ClockRead.ok 20, ClockRead.ok 30]).trace) ∧
    in_loop (run_cpu_direct example_env
        [ClockRead.ok 999999500, ClockRead.ok 50, ClockRead.ok 60, ClockRead.ok 999999900,
         ClockRead.ok 20, ClockRead.ok 30]).ctl = true ∧
    (∀ clk2, in_loop (run_cpu_direct example_env clk2).ctl = true ∨
      (run_cpu_direct example_env clk2).ctl = Ctl.aborted) :=
  C4_edge_alternation example_env _ (by decide) rfl (by decide)

/-- C7: if the program is in one of its two busy-poll loops and the next clock read fails, it
aborts at that point: the only events after those of the run so far are the failed
`clock_gettime` and `abort()`, whatever the clock would have returned later, so no Set or Clear
write and no log line follows the failed read. -/
theorem C7_clock_failure_aborts (env : Env) (pre rest : List ClockRead)
    (hpoll : (run_cpu_direct env pre).ctl = Ctl.poll_rising ∨
      (run_cpu_direct env pre).ctl = Ctl.poll_falling) :
    (run_cpu_direct env (pre ++ ClockRead.fail :: rest)).ctl = Ctl.aborted ∧
    (run_cpu_direct env (pre ++ ClockRead.fail :: rest)).trace =
      (run_cpu_direct env pre).trace ++ [Event.clock_gettime ClockRead.fail, Event.abort] ∧
    set_clr_writes (run_cpu_direct env (pre ++ ClockRead.fail :: rest)).trace =
      set_clr_writes (run_cpu_direct env pre).trace ∧
    log_output (run_cpu_direct env (pre ++ ClockRead.fail :: rest)).trace =
      log_output (run_cpu_direct env pre).trace := by
  by_cases hbad : env.open_ret < 0 ∨ env.mmap_ok = false
  · have hf := (run_cpu_direct_null env pre hbad).1
    rw [hf] at hpoll
    rcases hpoll with h | h <;> exact absurd h (by decide)
  · have hopen : 0 ≤ env.open_ret := not_lt.mp (fun h => hbad (Or.inl h))
    have hmap : env.mmap_ok = true := by
      cases hm : env.mmap_ok
      · exact absurd (Or.inr hm) hbad
      · rfl
    rw [run_cpu_direct_mapped env pre hopen hmap] at hpoll
    have htr : (run_cpu_direct env (pre ++ ClockRead.fail :: rest)).trace =
        (run_cpu_direct env pre).trace ++ [Event.clock_gettime ClockRead.fail, Event.abort] := by
      rw [run_cpu_direct_mapped env _ hopen hmap, run_cpu_direct_mapped env pre hopen hmap,
        run_loop_append, run_loop_poll_fail _ rest hpoll]
      simp only [List.append_assoc]
    refine ⟨?_, htr, ?_, ?_⟩
    · rw [run_cpu_direct_mapped env _ hopen hmap, run_loop_append,
        run_loop_poll_fail _ rest hpoll]
    · rw [htr, set_clr_writes_append, writes_of_poll_fail, List.append_nil]
    · rw [htr]
      simp [log_output, is_log]

/-- Witness for C7: the clock fails in the first busy-poll loop after one good read. -/
theorem C7_clock_failure_aborts_witness :
    (run_cpu_direct example_env ([ClockRead.ok 5] ++ ClockRead.fail :: [ClockRead.ok 1])).ctl =
      Ctl.aborted ∧
    (run_cpu_direct example_env ([ClockRead.ok 5] ++ ClockRead.fail :: [ClockRead.ok 1])).trace =
      (run_cpu_direct example_env [ClockRead.ok 5]).trace ++
        [Event.clock_gettime ClockRead.fail, Event.abort] ∧
    set_clr_writes
        (run_cpu_direct example_env ([ClockRead.ok 5] ++ ClockRead.fail :: [ClockRead.ok 1])).trace =
      set_clr_writes (run_cpu_direct example_env [ClockRead.ok 5]).trace ∧
    log_output
        (run_cpu_direct example_env ([ClockRead.ok 5] ++ ClockRead.fail :: [ClockRead.ok 1])).trace =
      log_output (run_cpu_direct example_env [ClockRead.ok 5]).trace :=
  C7_clock_failure_aborts example_env [ClockRead.ok 5] [ClockRead.ok 1] (Or.inl (by decide))

/-- C5: wrap detection of the busy-poll loops. Start in either busy-poll loop holding
`s.tv_nsec`, and let the clock return the samples `pre` followed by `x`, where `pre` is
non-empty and non-decreasing, its first sample is not below the held value, and `x` is strictly
below the last sample of `pre`. Then after any prefix of `pre` the loop is still polling and has
only read the clock; on `x` it exits, having read exactly the samples `pre ++ [x]`, with
`last_nsec` the sample before `x` and `tv_nsec = x`, and the register write follows once. On
equal consecutive samples the loop never exits. -/
theorem C5_wrap_detection (s : State) (pre : List Int) (x : Int)
    (hctl : s.ctl = Ctl.poll_rising ∨ s.ctl = Ctl.poll_falling)
    (hne : pre ≠ []) (hfirst : s.tv_nsec ≤ pre.head hne)
    (hmono : List.Chain' (fun a b => a ≤ b) pre) (hwrap : x < pre.getLast hne) :
    (∀ k, k ≤ pre.length →
      (run_loop s ((pre.take k).map ClockRead.ok)).1.ctl = s.ctl ∧
      (run_loop s ((pre.take k).map ClockRead.ok)).2 =
        (pre.take k).map (fun t => Event.clock_gettime (ClockRead.ok t))) ∧
    (run_loop s ((pre ++ [x]).map ClockRead.ok)).2 =
      (pre ++ [x]).map (fun t => Event.clock_gettime (ClockRead.ok t)) ++
        [Event.store (if s.ctl = Ctl.poll_rising then set_reg_index else clr_reg_index)
          0x04000000] ∧
    (run_loop s ((pre ++ [x]).map ClockRead.ok)).1.ctl =
      (if s.ctl = Ctl.poll_rising then Ctl.stamp_rising else Ctl.stamp_falling) ∧
    (run_loop s ((pre ++ [x]).map ClockRead.ok)).1.last_nsec = pre.getLast hne ∧
    (run_loop s ((pre ++ [x]).map ClockRead.ok)).1.tv_nsec = x ∧
    (∀ n, (run_loop s (List.replicate n (ClockRead.ok s.tv_nsec))).1.ctl = s.ctl ∧
      set_clr_writes (run_loop s (List.replicate n (ClockRead.ok s.tv_nsec))).2 = []) := by
  obtain ⟨ctl, l, c, w⟩ := s
  simp only at hctl hfirst ⊢
  have hch : List.Chain' (fun a b => a ≤ b) (c :: pre) := by
    cases pre with
    | nil => exact absurd rfl hne
    | cons a tl => exact List.Chain'.cons hfirst hmono
  refine ⟨?_, ?_, ?_, ?_, ?_, ?_⟩
  · intro k _
    have hk : List.Chain' (fun a b => a ≤ b) (c :: pre.take k) := by
      have := List.Chain'.take hch (k + 1)
      simpa using this
    obtain ⟨l2, h2⟩ := run_loop_poll_nondecreasing ctl hctl (pre.take k) l c w hk
    rw [h2]
    exact ⟨rfl, rfl⟩
  all_goals
    obtain ⟨l2, h2⟩ := run_loop_poll_nondecreasing ctl hctl pre l c w hch
    have hx : x < last_sample c pre := by
      rw [last_sample_eq_getLast c pre hne]
      exact hwrap
  · rw [List.map_append, run_loop_append, h2]
    simp only [List.map_cons, List.map_nil, run_loop, step_poll_wrap ctl hctl _ _ _ _ hx,
      List.append_nil, List.map_append, List.append_assoc, List.singleton_append]
  · rw [List.map_append, run_loop_append, h2]
    simp only [List.map_cons, List.map_nil, run_loop, step_poll_wrap ctl hctl _ _ _ _ hx]
  · rw [List.map_append, run_loop_append, h2]
    simp only [List.map_cons, List.map_nil, run_loop, step_poll_wrap ctl hctl _ _ _ _ hx]
    exact last_sample_eq_getLast c pre hne
  · rw [List.map_append, run_loop_append, h2]
    simp only [List.map_cons, List.map_nil, run_loop, step_poll_wrap ctl hctl _ _ _ _ hx]
  · intro n
    clear h2 hx l2
    induction n generalizing l with
    | zero => exact ⟨rfl, rfl⟩
    | succ m ih =>
      have hs : step { ctl := ctl, last_nsec := l, tv_nsec := c, window := w }
          (ClockRead.ok c) =
          ({ ctl := ctl, last_nsec := c, tv_nsec := c, window := w },
            [Event.clock_gettime (ClockRead.ok c)]) := by
        unfold step
        rcases hctl with h | h <;> subst h <;> exact poll_step_stay _ _ _ _ (le_refl _)
      simp only [List.replicate_succ, run_loop, hs, set_clr_writes_append, writes_of_poll_stay,
        List.nil_append]
      exact ih c

/-- Witness for C5: the samples 999999000, 999999500, 50 read in the first busy-poll loop of a
fresh run (held value 0): the loop exits on 50. -/
theorem C5_wrap_detection_witness :
    (∀ k, k ≤ [(999999000 : Int), 999999500].length →
      (run_loop (loop_entry (fun _ => 0))
        (([(999999000 : Int), 999999500].take k).map ClockRead.ok)).1.ctl =
          (loop_entry (fun _ => 0)).ctl ∧
      (run_loop (loop_entry (fun _ => 0))
        (([(999999000 : Int), 999999500].take k).map ClockRead.ok)).2 =
        ([(999999000 : Int), 999999500].take k).map
          (fun t => Event.clock_gettime (ClockRead.ok t))) ∧
    (run_loop (loop_entry (fun _ => 0))
        (([(999999000 : Int), 999999500] ++ [50]).map ClockRead.ok)).2 =
      ([(999999000 : Int), 999999500] ++ [50]).map
          (fun t => Event.clock_gettime (ClockRead.ok t)) ++
        [Event.store (if (loop_entry (fun _ => 0)).ctl = Ctl.poll_rising then set_reg_index
          else clr_reg_index) 0x04000000] ∧
    (run_loop (loop_entry (fun _ => 0))
        (([(999999000 : Int), 999999500] ++ [50]).map ClockRead.ok)).1.ctl =
      (if (loop_entry (fun _ => 0)).ctl = Ctl.poll_rising then Ctl.stamp_rising
        else Ctl.stamp_falling) ∧
    (run_loop (loop_entry (fun _ => 0))
        (([(999999000 : Int), 999999500] ++ [50]).map ClockRead.ok)).1.last_nsec =
      [(999999000 : Int), 999999500].getLast (by decide) ∧
    (run_loop (loop_entry (fun _ => 0))
        (([(999999000 : Int), 999999500] ++ [50]).map ClockRead.ok)).1.tv_nsec = 50 ∧
    (∀ n, (run_loop (loop_entry (fun _ => 0))
        (List.replicate n (ClockRead.ok (loop_entry (fun _ => 0)).tv_nsec))).1.ctl =
          (loop_entry (fun _ => 0)).ctl ∧
      set_clr_writes (run_loop (loop_entry (fun _ => 0))
        (List.replicate n (ClockRead.ok (loop_entry (fun _ => 0)).tv_nsec))).2 = []) :=
  C5_wrap_detection (loop_entry (fun _ => 0)) [999999000, 999999500] 50 (Or.inl rfl)
    (by decide) (by decide) (List.Chain'.cons (by decide) (List.chain'_singleton _)) (by decide)

/-- C8: pin-26 scenario on a word buffer. After `initialize_gpio_for_output(window, 26)`, the
write on leaving the first busy-poll loop stores exactly `0x04000000 = 2^26` into word 7 (byte
offset `0x1C`, the Set register), and the write on leaving the second stores exactly
`0x04000000` into word 10 (byte offset `0x28`, the Clear register); words 7, 10 and the
function-select word 2 are distinct, and no other word of the page is changed by either write. -/
theorem C8_pin26_scenario (w : Window) (l c x y z : Int) (hx : x < c) (hz : z < y) :
    ∃ w1 tr, initialize_gpio_for_output w TOGGLE_GPIO = some (w1, tr) ∧
      step { ctl := Ctl.poll_rising, last_nsec := l, tv_nsec := c, window := w1 }
          (ClockRead.ok x) =
        ({ ctl := Ctl.stamp_rising, last_nsec := c, tv_nsec := x,
           window := Function.update w1 7 0x04000000 },
          [Event.clock_gettime (ClockRead.ok x), Event.store 7 0x04000000]) ∧
      run_loop { ctl := Ctl.poll_rising, last_nsec := l, tv_nsec := c, window := w1 }
          [ClockRead.ok x, ClockRead.ok y, ClockRead.ok z] =
        ({ ctl := Ctl.stamp_falling, last_nsec := y, tv_nsec := z,
           window := Function.update (Function.update w1 7 0x04000000) 10 0x04000000 },
          [Event.clock_gettime (ClockRead.ok x), Event.store 7 0x04000000,
           Event.clock_gettime (ClockRead.ok y),
           Event.printf "Signal: %lu - %lu ns\n" [x, y], Event.usleep 900000,
           Event.clock_gettime (ClockRead.ok z), Event.store 10 0x04000000]) ∧
      (∀ j : Nat, j ≠ 7 → Function.update w1 7 0x04000000 j = w1 j) ∧
      (∀ j : Nat, j ≠ 10 →
        Function.update (Function.update w1 7 0x04000000) 10 0x04000000 j =
          Function.update w1 7 0x04000000 j) ∧
      Function.update (Function.update w1 7 0x04000000) 10 0x04000000 7 = 0x04000000 ∧
      Function.update (Function.update w1 7 0x04000000) 10 0x04000000 10 = 0x04000000 ∧
      (∀ j : Nat, j ≠ 2 → w1 j = w j) ∧
      set_reg_index = 7 ∧ GPIO_SET_OFFSET = 0x1C ∧ clr_reg_index = 10 ∧ GPIO_CLR_OFFSET = 0x28 ∧
      fsel_word TOGGLE_GPIO = 2 ∧ (0x04000000 : Nat) = 2 ^ 26 := by
  refine ⟨_, _, initialize_toggle_gpio w, ?_, ?_, ?_, ?_, ?_, ?_, ?_, by decide, by decide,
    by decide, by decide, by decide, by norm_num⟩
  · exact step_poll_wrap Ctl.poll_rising (Or.inl rfl) _ _ _ _ hx
  · simp only [run_loop]
    rw [step_poll_wrap Ctl.poll_rising (Or.inl rfl) _ _ _ _ hx]
    simp only [step, stamp_step, if_true]
    rw [poll_step_exit _ _ _ _ hz clr_reg_in_page]
    rfl
  · intro j hj
    exact Function.update_noteq hj _ _
  · intro j hj
    exact Function.update_noteq hj _ _
  · rw [Function.update_noteq (by decide), Function.update_same]
  · rw [Function.update_same]
  · intro j hj
    exact Function.update_noteq hj _ _

/-- Witness for C8: a page of zero words, the counter wrapping from 999999500 to 50 and later
from 999999900 to 20. -/
theorem C8_pin26_scenario_witness :
    ∃ w1 tr, initialize_gpio_for_output (fun _ => 0) TOGGLE_GPIO = some (w1, tr) ∧
      step { ctl := Ctl.poll_rising, last_nsec := 0, tv_nsec := 999999500, window := w1 }
          (ClockRead.ok 50) =
        ({ ctl := Ctl.stamp_rising, last_nsec := 999999500, tv_nsec := 50,
           window := Function.update w1 7 0x04000000 },
          [Event.clock_gettime (ClockRead.ok 50), Event.store 7 0x04000000]) ∧
      run_loop { ctl := Ctl.poll_rising, last_nsec := 0, tv_nsec := 999999500, window := w1 }
          [ClockRead.ok 50, ClockRead.ok 999999900, ClockRead.ok 20] =
        ({ ctl := Ctl.stamp_falling, last_nsec := 999999900, tv_nsec := 20,
           window := Function.update (Function.update w1 7 0x04000000) 10 0x04000000 },
          [Event.clock_gettime (ClockRead.ok 50), Event.store 7 0x04000000,
           Event.clock_gettime (ClockRead.ok 999999900),
           Event.printf "Signal: %lu - %lu ns\n" [50, 999999900], Event.usleep 900000,
           Event.clock_gettime (ClockRead.ok 20), Event.store 10 0x04000000]) ∧
      (∀ j : Nat, j ≠ 7 → Function.update w1 7 0x04000000 j = w1 j) ∧
      (∀ j : Nat, j ≠ 10 →
        Function.update (Function.update w1 7 0x04000000) 10 0x04000000 j =
          Function.update w1 7 0x04000000 j) ∧
      Function.update (Function.update w1 7 0x04000000) 10 0x04000000 7 = 0x04000000 ∧
      Function.update (Function.update w1 7 0x04000000) 10 0x04000000 10 = 0x04000000 ∧
      (∀ j : Nat, j ≠ 2 → w1 j = (fun _ => 0 : Window) j) ∧
      set_reg_index = 7 ∧ GPIO_SET_OFFSET = 0x1C ∧ clr_reg_index = 10 ∧ GPIO_CLR_OFFSET = 0x28 ∧
      fsel_word TOGGLE_GPIO = 2 ∧ (0x04000000 : Nat) = 2 ^ 26 :=
  C8_pin26_scenario (fun _ => 0) 0 999999500 50 999999900 20 (by decide) (by decide)

/-! ## Theorems: mapping, failure paths, scheduling -/

/-- C6 (evaluation at the failing inputs): when opening `/dev/mem` fails, and likewise when
`mmap` fails, `mmap_bcm_register` returns `NULL`, and `run_cpu_direct` then passes that pointer
to `initialize_gpio_for_output`, so its next action is an access to word 2 through the invalid
pointer; the toggle loop is not reached (no clock read, no log banner). -/
theorem C6_null_window_is_dereferenced :
    (mmap_bcm_register open_fail_env GPIO_REGISTER_BASE).1.is_null = true ∧
    (run_cpu_direct open_fail_env [ClockRead.ok 5]).ctl = Ctl.fault ∧
    (run_cpu_direct open_fail_env [ClockRead.ok 5]).trace =
      [Event.sys_open "/dev/mem" true true (-1),
       Event.perror "can't open /dev/mem: ",
       Event.fprintf_stderr "You need to run this as root!\n" [],
       Event.invalid_access 2] ∧
    (run_cpu_direct open_fail_env [ClockRead.ok 5]).trace.any is_window_access = true ∧
    (mmap_bcm_register mmap_fail_env GPIO_REGISTER_BASE).1.is_null = true ∧
    (run_cpu_direct mmap_fail_env [ClockRead.ok 5]).ctl = Ctl.fault ∧
    (run_cpu_direct mmap_fail_env [ClockRead.ok 5]).trace =
      [Event.sys_open "/dev/mem" true true 3,
       Event.sys_mmap 4096 true true true 3 0xFE200000 false,
       Event.sys_close 3,
       Event.fprintf_stderr "mmap error %p\n" [-1],
       Event.invalid_access 2] ∧
    (run_cpu_direct mmap_fail_env [ClockRead.ok 5]).trace.any is_window_access = true := by
  refine ⟨rfl, rfl, rfl, rfl, rfl, rfl, rfl, rfl⟩

/-- C9 (counterexample): with `sched_setscheduler` returning -1 the log output of the run
consists of the start banner and the edge line only, exactly the log output of the run in which
the request succeeds; no log entry records the failure. -/
theorem C9_sched_failure_not_logged :
    Event.sched_setscheduler 0 SCHED_FIFO 99 (-1) ∈
      (run_cpu_direct sched_fail_env
        [ClockRead.ok 999999500, ClockRead.ok 50, ClockRead.ok 60]).trace ∧
    log_output (run_cpu_direct sched_fail_env
        [ClockRead.ok 999999500, ClockRead.ok 50, ClockRead.ok 60]).trace =
      [Event.printf "Starting pulses 1 per second.\n" [],
       Event.printf "Signal: %lu - %lu ns\n" [50, 60]] ∧
    ¬ ∃ e, e ∈ log_output (run_cpu_direct sched_fail_env
        [ClockRead.ok 999999500, ClockRead.ok 50, ClockRead.ok 60]).trace ∧
      e ∉ log_output (run_cpu_direct example_env
        [ClockRead.ok 999999500, ClockRead.ok 50, ClockRead.ok 60]).trace := by
  refine ⟨by decide, by decide, ?_⟩
  rintro ⟨e, h1, h2⟩
  have heq : log_output (run_cpu_direct sched_fail_env
        [ClockRead.ok 999999500, ClockRead.ok 50, ClockRead.ok 60]).trace =
      log_output (run_cpu_direct example_env
        [ClockRead.ok 999999500, ClockRead.ok 50, ClockRead.ok 60]).trace := by decide
  rw [heq] at h1
  exact h2 h1

/-- C9 (amended): the return value of `sched_setscheduler` is discarded. Whatever it is, the
run reaches the same control state and produces the same Set/Clear register writes and the same
log output as when the request succeeds (return value 0); the failure is not fatal and leaves no
record. -/
theorem C9_sched_result_ignored (env : Env) (clk : List ClockRead) (ret : Int) :
    (run_cpu_direct { env with sched_ret := ret } clk).ctl =
      (run_cpu_direct { env with sched_ret := 0 } clk).ctl ∧
    set_clr_writes (run_cpu_direct { env with sched_ret := ret } clk).trace =
      set_clr_writes (run_cpu_direct { env with sched_ret := 0 } clk).trace ∧
    log_output (run_cpu_direct { env with sched_ret := ret } clk).trace =
      log_output (run_cpu_direct { env with sched_ret := 0 } clk).trace ∧
    (0 ≤ env.open_ret → env.mmap_ok = true →
      Event.sched_setscheduler 0 SCHED_FIFO 99 ret ∈
        (run_cpu_direct { env with sched_ret := ret } clk).trace ∧
      (in_loop (run_cpu_direct { env with sched_ret := ret } clk).ctl = true ∨
        (run_cpu_direct { env with sched_ret := ret } clk).ctl = Ctl.aborted)) := by
  by_cases hbad : env.open_ret < 0 ∨ env.mmap_ok = false
  · have h1 := run_cpu_direct_null { env with sched_ret := ret } clk hbad
    have h2 := run_cpu_direct_null { env with sched_ret := 0 } clk hbad
    refine ⟨by rw [h1.1, h2.1], ?_, ?_, ?_⟩
    · rw [h1.2, h2.2]
      rfl
    · rw [h1.2, h2.2]
      rfl
    · intro hopen hmap
      rcases hbad with h | h
      · exact absurd hopen (not_le.mpr h)
      · rw [hmap] at h
        exact absurd h (by decide)
  · have hopen : 0 ≤ env.open_ret := not_lt.mp (fun h => hbad (Or.inl h))
    have hmap : env.mmap_ok = true := by
      cases hm : env.mmap_ok
      · exact absurd (Or.inr hm) hbad
      · rfl
    have h1 := run_cpu_direct_mapped { env with sched_ret := ret } clk hopen hmap
    have h2 := run_cpu_direct_mapped { env with sched_ret := 0 } clk hopen hmap
    have w1 := run_cpu_direct_writes { env with sched_ret := ret } clk hopen hmap
    have w2 := run_cpu_direct_writes { env with sched_ret := 0 } clk hopen hmap
    refine ⟨by rw [h1, h2], by rw [w1, w2], ?_, ?_⟩
    · rw [h1, h2]
      simp [log_output, is_log]
    · intro _ _
      refine ⟨?_, ?_⟩
      · rw [h1]
        simp
      · rw [h1]
        exact run_loop_never_returns clk _ rfl

/-- Witness for C9: the request fails with -1 in an environment where the mapping succeeds; the
call is in the trace and the run is inside the loop. -/
theorem C9_sched_result_ignored_witness :
    (0 ≤ example_env.open_ret ∧ example_env.mmap_ok = true) ∧
    Event.sched_setscheduler 0 SCHED_FIFO 99 (-1) ∈
      (run_cpu_direct { example_env with sched_ret := -1 }
        [ClockRead.ok 999999500, ClockRead.ok 50, ClockRead.ok 60]).trace ∧
    (in_loop (run_cpu_direct { example_env with sched_ret := -1 }
        [ClockRead.ok 999999500, ClockRead.ok 50, ClockRead.ok 60]).ctl = true ∨
      (run_cpu_direct { example_env with sched_ret := -1 }
        [ClockRead.ok 999999500, ClockRead.ok 50, ClockRead.ok 60]).ctl = Ctl.aborted) :=
  ⟨⟨by decide, rfl⟩,
    (C9_sched_result_ignored example_env
      [ClockRead.ok 999999500, ClockRead.ok 50, ClockRead.ok 60] (-1)).2.2.2 (by decide) rfl⟩

/-- C10: whenever `mmap_bcm_register` returns a mapping, its system calls were exactly: open
`/dev/mem` read/write, one `mmap` request of 4096 bytes, readable, writable and shared, on the
opened descriptor at file offset `0xFE000000 + region_offset`, then `close` of that descriptor;
for the GPIO block the offset is `0xFE200000`. When the device opens and `mmap` fails, the same
descriptor is closed as well and the result is `NULL`. -/
theorem C10_mmap_request (env : Env) (region_offset : Int) (w : Window) (tr : List Event)
    (h : mmap_bcm_register env region_offset = (MapResult.mapped w, tr)) :
    tr = [Event.sys_open "/dev/mem" true true env.open_ret,
          Event.sys_mmap 4096 true true true env.open_ret (0xFE000000 + region_offset) true,
          Event.sys_close env.open_ret] ∧
    0 ≤ env.open_ret ∧ w = env.page ∧
    PERI_BASE + GPIO_REGISTER_BASE = 0xFE200000 ∧
    (∀ env2 : Env, 0 ≤ env2.open_ret → env2.mmap_ok = false →
      (mmap_bcm_register env2 region_offset).1.is_null = true ∧
      (mmap_bcm_register env2 region_offset).2 =
        [Event.sys_open "/dev/mem" true true env2.open_ret,
         Event.sys_mmap 4096 true true true env2.open_ret (0xFE000000 + region_offset) false,
         Event.sys_close env2.open_ret,
         Event.fprintf_stderr "mmap error %p\n" [-1]]) := by
  unfold mmap_bcm_register at h
  by_cases h1 : env.open_ret < 0
  · simp [if_pos h1] at h
  · by_cases h2 : PERI_BASE + region_offset < OFF_T_MIN ∨ OFF_T_MAX < PERI_BASE + region_offset
    · simp [if_neg h1, if_pos h2] at h
    · cases hm : env.mmap_ok
      · simp [if_neg h1, if_neg h2, hm] at h
      · simp only [if_neg h1, if_neg h2, hm, Prod.mk.injEq, MapResult.mapped.injEq] at h
        simp only [Bool.true_eq_false, if_false, Prod.mk.injEq, MapResult.mapped.injEq] at h
        refine ⟨h.2.symm, not_lt.mp h1, h.1.symm, by decide, ?_⟩
        intro env2 hopen2 hmap2
        unfold mmap_bcm_register
        simp only [if_neg (not_lt.mpr hopen2), if_neg h2, hmap2, if_true]
        exact ⟨rfl, rfl⟩

/-- Witness for C10: the GPIO block in an environment where the mapping succeeds, and the
failure case in an environment where the device opens as descriptor 3 and `mmap` fails. -/
theorem C10_mmap_request_witness :
    mmap_bcm_register example_env GPIO_REGISTER_BASE =
      (MapResult.mapped example_env.page,
        [Event.sys_open "/dev/mem" true true 3,
         Event.sys_mmap 4096 true true true 3 0xFE200000 true,
         Event.sys_close 3]) ∧
    [Event.sys_open "/dev/mem" true true 3,
     Event.sys_mmap 4096 true true true 3 0xFE200000 true,
     Event.sys_close 3] =
      [Event.sys_open "/dev/mem" true true example_env.open_ret,
       Event.sys_mmap 4096 true true true example_env.open_ret
         (0xFE000000 + GPIO_REGISTER_BASE) true,
       Event.sys_close example_env.open_ret] ∧
    (0 ≤ mmap_fail_env.open_ret ∧ mmap_fail_env.mmap_ok = false) ∧
    (mmap_bcm_register mmap_fail_env GPIO_REGISTER_BASE).1.is_null = true ∧
    (mmap_bcm_register mmap_fail_env GPIO_REGISTER_BASE).2 =
      [Event.sys_open "/dev/mem" true true mmap_fail_env.open_ret,
       Event.sys_mmap 4096 true true true mmap_fail_env.open_ret
         (0xFE000000 + GPIO_REGISTER_BASE) false,
       Event.sys_close mmap_fail_env.open_ret,
       Event.fprintf_stderr "mmap error %p\n" [-1]] :=
  ⟨rfl,
    (C10_mmap_request example_env GPIO_REGISTER_BASE example_env.page
      [Event.sys_open "/dev/mem" true true 3,
       Event.sys_mmap 4096 true true true 3 0xFE200000 true,
       Event.sys_close 3] rfl).1,
    ⟨by decide, rfl⟩,
    (C10_mmap_request example_env GPIO_REGISTER_BASE example_env.page
      [Event.sys_open "/dev/mem" true true 3,
       Event.sys_mmap 4096 true true true 3 0xFE200000 true,
       Event.sys_close 3] rfl).2.2.2.2 mmap_fail_env (by decide) rfl⟩

end Pulse
